import Mathlib

/-!
Shallow embedding of the ProductCatalogService core domain:
Money (exact rational monetary values), Discount (percentage with a
half-open validity window), ChangeTracker (dirty-field ledger),
the Product aggregate with its lifecycle state machine and pending
domain events, and the WritePlan mutation collector.

Go `time.Time` values are modelled as integers ordered by `<`
(`t.Before(u)` is `t < u`, `t.After(u)` is `t > u`); Go `*T` pointers
that may be nil are modelled as `Option`; Go methods that mutate the
receiver and return an error are modelled as functions returning the
updated value paired with an optional error.
-/

namespace Catalog

/-- TrimSpace models Go strings.TrimSpace: drop all leading and all
trailing whitespace characters from the string. -/
def TrimSpace (s : String) : String :=
  ⟨((s.data.dropWhile Char.isWhitespace).reverse.dropWhile
      Char.isWhitespace).reverse⟩

/-- Money stores an exact rational amount, as Go does with big.Rat. -/
structure Money where
  amount : Rat
deriving DecidableEq, Repr

/-- NewMoney embeds the Go constructor: a zero denominator is replaced
by 1, then the amount is the exact rational numerator/denominator. -/
def NewMoney (numerator denominator : Int) : Money :=
  let d : Int := if denominator = 0 then 1 else denominator
  ⟨(numerator : Rat) / (d : Rat)⟩

namespace Money

/-- IsZero embeds Money.IsZero: the sign of the amount is zero. -/
def IsZero (m : Money) : Bool := m.amount = 0

/-- IsPositive embeds Money.IsPositive: the sign of the amount is
strictly positive. -/
def IsPositive (m : Money) : Bool := 0 < m.amount

/-- IsNegative embeds Money.IsNegative. -/
def IsNegative (m : Money) : Bool := m.amount < 0

/-- Equals embeds Money.Equals on non-nil receivers: comparison of the
two exact rational amounts. -/
def Equals (m other : Money) : Bool := m.amount = other.amount

/-- Add embeds Money.Add on non-nil arguments. -/
def Add (m other : Money) : Money := ⟨m.amount + other.amount⟩

/-- Sub embeds Money.Sub on non-nil arguments. -/
def Sub (m other : Money) : Money := ⟨m.amount - other.amount⟩

/-- Multiply embeds Money.Multiply with a present factor. -/
def Multiply (m : Money) (factor : Rat) : Money := ⟨m.amount * factor⟩

/-- CalculatePercentage embeds Money.CalculatePercentage with a present
percentage: amount times percentage/100. -/
def CalculatePercentage (m : Money) (percentage : Rat) : Money :=
  m.Multiply (percentage / 100)

/-- ApplyDiscount embeds Money.ApplyDiscount with a present percentage:
the amount minus the computed percentage of it. -/
def ApplyDiscount (m : Money) (percentage : Rat) : Money :=
  m.Sub (m.CalculatePercentage percentage)

end Money

/-- ProductError enumerates the domain sentinel errors of the package. -/
inductive ProductError where
  | invalidID
  | invalidProductName
  | invalidProductCategory
  | invalidBasePrice
  | invalidDiscountPercentage
  | invalidDiscountPeriod
  | productNotActive
  | productArchived
  | productAlreadyActive
  | productAlreadyInactive
  | noDiscountToRemove
deriving DecidableEq, Repr

/-- Discount is the percentage value object with validity window. -/
structure Discount where
  percentage : Rat
  startDate : Int
  endDate : Int
deriving DecidableEq, Repr

/-- NewDiscount embeds the Go constructor: a nil percentage or one
outside (0, 100] is rejected, and the end date must be strictly after
the start date. -/
def NewDiscount (percentage : Option Rat) (startDate endDate : Int) :
    Except ProductError Discount :=
  match percentage with
  | none => .error .invalidDiscountPercentage
  | some pct =>
    if pct ≤ 0 then .error .invalidDiscountPercentage
    else if 100 < pct then .error .invalidDiscountPercentage
    else if ¬ startDate < endDate then .error .invalidDiscountPeriod
    else .ok ⟨pct, startDate, endDate⟩

namespace Discount

/-- IsValidAt embeds Discount.IsValidAt on a non-nil receiver:
not before the start date and strictly before the end date. -/
def IsValidAt (d : Discount) (t : Int) : Bool :=
  !(t < d.startDate) && (t < d.endDate)

/-- IsActive is, as in the source, an alias for IsValidAt. -/
def IsActive (d : Discount) (t : Int) : Bool := d.IsValidAt t

/-- IsExpired embeds Discount.IsExpired on a non-nil receiver: the time
is not before the end date. -/
def IsExpired (d : Discount) (t : Int) : Bool := !(t < d.endDate)

/-- HasStarted embeds Discount.HasStarted on a non-nil receiver. -/
def HasStarted (d : Discount) (t : Int) : Bool := !(t < d.startDate)

/-- ApplyTo embeds Discount.ApplyTo on non-nil receiver and price. -/
def ApplyTo (d : Discount) (price : Money) : Money :=
  price.ApplyDiscount d.percentage

end Discount

/-- Field name constants used by the change tracker. -/
def FieldName : String := "name"

/-- Field name constant for the description field. -/
def FieldDescription : String := "description"

/-- Field name constant for the category field. -/
def FieldCategory : String := "category"

/-- Field name constant for the base price field. -/
def FieldBasePrice : String := "base_price"

/-- Field name constant for the discount field. -/
def FieldDiscount : String := "discount"

/-- Field name constant for the status field. -/
def FieldStatus : String := "status"

/-- ChangeTracker models the Go map from field name to dirty flag.
MarkDirty is the only writer and always stores true, so the map is
represented by its list of keys in insertion order. -/
structure ChangeTracker where
  dirtyFields : List String
deriving DecidableEq, Repr

/-- NewChangeTracker embeds the Go constructor: an empty map. -/
def NewChangeTracker : ChangeTracker := ⟨[]⟩

namespace ChangeTracker

/-- MarkDirty embeds ChangeTracker.MarkDirty: store true under the
given field name. -/
def MarkDirty (ct : ChangeTracker) (field : String) : ChangeTracker :=
  if ct.dirtyFields.contains field then ct
  else ⟨ct.dirtyFields ++ [field]⟩

/-- Dirty embeds ChangeTracker.Dirty: whether the field was marked. -/
def Dirty (ct : ChangeTracker) (field : String) : Bool :=
  ct.dirtyFields.contains field

/-- HasChanges embeds ChangeTracker.HasChanges: some field is dirty. -/
def HasChanges (ct : ChangeTracker) : Bool := !ct.dirtyFields.isEmpty

/-- Reset embeds ChangeTracker.Reset: all dirty flags cleared. -/
def Reset (_ : ChangeTracker) : ChangeTracker := ⟨[]⟩

/-- Clear embeds ChangeTracker.Clear: remove one field from the set. -/
def Clear (ct : ChangeTracker) (field : String) : ChangeTracker :=
  ⟨ct.dirtyFields.filter (fun f => f ≠ field)⟩

/-- MarkAllDirty embeds ChangeTracker.MarkAllDirty: mark each listed
field in order. -/
def MarkAllDirty (ct : ChangeTracker) (fields : List String) : ChangeTracker :=
  fields.foldl MarkDirty ct

end ChangeTracker

/-- ProductStatus enumerates the four lifecycle states. -/
inductive ProductStatus where
  | draft
  | active
  | inactive
  | archived
deriving DecidableEq, Repr

namespace ProductStatus

/-- CanActivate embeds ProductStatus.CanActivate. -/
def CanActivate (s : ProductStatus) : Bool :=
  s = ProductStatus.draft ∨ s = ProductStatus.inactive

/-- CanDeactivate embeds ProductStatus.CanDeactivate. -/
def CanDeactivate (s : ProductStatus) : Bool := s = ProductStatus.active

/-- CanArchive embeds ProductStatus.CanArchive. -/
def CanArchive (s : ProductStatus) : Bool := s ≠ ProductStatus.archived

/-- CanUpdate embeds ProductStatus.CanUpdate. -/
def CanUpdate (s : ProductStatus) : Bool := s ≠ ProductStatus.archived

/-- CanApplyDiscount embeds ProductStatus.CanApplyDiscount. -/
def CanApplyDiscount (s : ProductStatus) : Bool := s = ProductStatus.active

end ProductStatus

/-- DomainEvent is the closed family of domain events, one constructor
per Go event struct, each carrying the aggregate id, the payload and
the occurrence time. -/
inductive DomainEvent where
  | created (aggregateID name description category : String)
      (basePrice : Money) (occurredAt : Int)
  | updated (aggregateID name description category : String) (occurredAt : Int)
  | activated (aggregateID : String) (occurredAt : Int)
  | deactivated (aggregateID : String) (occurredAt : Int)
  | archived (aggregateID : String) (occurredAt : Int)
  | discountApplied (aggregateID : String) (percentage : Rat)
      (startDate endDate occurredAt : Int)
  | discountRemoved (aggregateID : String) (occurredAt : Int)
deriving DecidableEq, Repr

/-- EventType embeds the EventType method of each event struct. -/
def DomainEvent.EventType : DomainEvent → String
  | .created _ _ _ _ _ _ => "product.created"
  | .updated _ _ _ _ _ => "product.updated"
  | .activated _ _ => "product.activated"
  | .deactivated _ _ => "product.deactivated"
  | .archived _ _ => "product.archived"
  | .discountApplied _ _ _ _ _ => "product.discount_applied"
  | .discountRemoved _ _ => "product.discount_removed"

/-- Product is the aggregate root, with the same fields as the Go
struct. -/
structure Product where
  id : String
  name : String
  description : String
  category : String
  basePrice : Money
  discount : Option Discount
  status : ProductStatus
  createdAt : Int
  updatedAt : Int
  archivedAt : Option Int
  changes : ChangeTracker
  events : List DomainEvent
deriving DecidableEq, Repr

/-- NewProduct embeds the Go constructor: blank id, name or category
and a nil or non-positive base price are rejected; on success every
field of the new aggregate is set, all five tracked scalar fields are
marked dirty and one Created event is recorded. -/
def NewProduct (id name description category : String)
    (basePrice : Option Money) (now : Int) : Except ProductError Product :=
  if TrimSpace id = "" then .error .invalidID
  else if TrimSpace name = "" then .error .invalidProductName
  else if TrimSpace category = "" then .error .invalidProductCategory
  else match basePrice with
    | none => .error .invalidBasePrice
    | some bp =>
      if ¬ bp.IsPositive then .error .invalidBasePrice
      else
        .ok { id := id
              name := TrimSpace name
              description := TrimSpace description
              category := TrimSpace category
              basePrice := bp
              discount := none
              status := ProductStatus.draft
              createdAt := now
              updatedAt := now
              archivedAt := none
              changes := NewChangeTracker.MarkAllDirty
                [FieldName, FieldDescription, FieldCategory,
                 FieldBasePrice, FieldStatus]
              events := [DomainEvent.created id (TrimSpace name)
                (TrimSpace description) (TrimSpace category) bp now] }

/-- ReconstructProduct embeds the Go hydration constructor used by the
repository: fields are taken as given, with a fresh tracker and no
events. -/
def ReconstructProduct (id name description category : String)
    (basePrice : Money) (discount : Option Discount)
    (status : ProductStatus) (createdAt updatedAt : Int)
    (archivedAt : Option Int) : Product :=
  { id := id
    name := name
    description := description
    category := category
    basePrice := basePrice
    discount := discount
    status := status
    createdAt := createdAt
    updatedAt := updatedAt
    archivedAt := archivedAt
    changes := NewChangeTracker
    events := [] }

namespace Product

/-- ClearEvents embeds Product.ClearEvents. -/
def ClearEvents (p : Product) : Product := { p with events := [] }

/-- EffectivePrice embeds Product.EffectivePrice: the discounted price
when a discount is present and active, the base price otherwise. -/
def EffectivePrice (p : Product) (now : Int) : Money :=
  match p.discount with
  | some d => if d.IsActive now then d.ApplyTo p.basePrice else p.basePrice
  | none => p.basePrice

/-- HasActiveDiscount embeds Product.HasActiveDiscount. -/
def HasActiveDiscount (p : Product) (now : Int) : Bool :=
  match p.discount with
  | some d => d.IsActive now
  | none => false

/-- Update embeds Product.Update, mirroring the Go control flow: guard
checks first (each returning with the receiver untouched), then each of
the three fields is compared trimmed, assigned and marked dirty only if
it changed, and a single Updated event is appended only when at least
one field changed. The result pairs the final receiver state with the
returned error. -/
def Update (p : Product) (name description category : String) (now : Int) :
    Product × Option ProductError :=
  if p.status = ProductStatus.archived then (p, some .productArchived)
  else if TrimSpace name = "" then (p, some .invalidProductName)
  else if TrimSpace category = "" then (p, some .invalidProductCategory)
  else
    let newName := TrimSpace name
    let s1 : Product × Bool :=
      if p.name ≠ newName then
        ({ p with name := newName, changes := p.changes.MarkDirty FieldName },
         true)
      else (p, false)
    let newDescription := TrimSpace description
    let s2 : Product × Bool :=
      if s1.1.description ≠ newDescription then
        ({ s1.1 with description := newDescription,
                     changes := s1.1.changes.MarkDirty FieldDescription },
         true)
      else s1
    let newCategory := TrimSpace category
    let s3 : Product × Bool :=
      if s2.1.category ≠ newCategory then
        ({ s2.1 with category := newCategory,
                     changes := s2.1.changes.MarkDirty FieldCategory },
         true)
      else s2
    let q :=
      if s3.2 then
        { s3.1 with updatedAt := now,
                    events := s3.1.events ++
                      [DomainEvent.updated s3.1.id s3.1.name
                        s3.1.description s3.1.category now] }
      else s3.1
    (q, none)

/-- Activate embeds Product.Activate: guards for archived, already
active and non-activatable states, then the transition to Active. -/
def Activate (p : Product) (now : Int) : Product × Option ProductError :=
  if p.status = ProductStatus.archived then (p, some .productArchived)
  else if p.status = ProductStatus.active then (p, some .productAlreadyActive)
  else if ¬ p.status.CanActivate then (p, some .productNotActive)
  else
    ({ p with status := ProductStatus.active,
              updatedAt := now,
              changes := p.changes.MarkDirty FieldStatus,
              events := p.events ++ [DomainEvent.activated p.id now] },
     none)

/-- Deactivate embeds Product.Deactivate. -/
def Deactivate (p : Product) (now : Int) : Product × Option ProductError :=
  if p.status = ProductStatus.archived then (p, some .productArchived)
  else if p.status = ProductStatus.inactive then
    (p, some .productAlreadyInactive)
  else if ¬ p.status.CanDeactivate then (p, some .productNotActive)
  else
    ({ p with status := ProductStatus.inactive,
              updatedAt := now,
              changes := p.changes.MarkDirty FieldStatus,
              events := p.events ++ [DomainEvent.deactivated p.id now] },
     none)

/-- Archive embeds Product.Archive: only an already archived product is
rejected; otherwise the status becomes Archived and archivedAt is set
to now. -/
def Archive (p : Product) (now : Int) : Product × Option ProductError :=
  if p.status = ProductStatus.archived then (p, some .productArchived)
  else
    ({ p with status := ProductStatus.archived,
              archivedAt := some now,
              updatedAt := now,
              changes := p.changes.MarkDirty FieldStatus,
              events := p.events ++ [DomainEvent.archived p.id now] },
     none)

/-- ApplyDiscount embeds Product.ApplyDiscount, keeping the guard
order of the source: a non-Active status is rejected first with
ProductNotActive,
the subsequent Archived check is therefore unreachable, then a nil or
expired discount is rejected, and finally the discount replaces any
existing one. -/
def ApplyDiscount (p : Product) (discount : Option Discount) (now : Int) :
    Product × Option ProductError :=
  if p.status ≠ ProductStatus.active then (p, some .productNotActive)
  else if p.status = ProductStatus.archived then (p, some .productArchived)
  else match discount with
    | none => (p, some .invalidDiscountPercentage)
    | some d =>
      if d.IsExpired now then (p, some .invalidDiscountPeriod)
      else
        ({ p with discount := some d,
                  updatedAt := now,
                  changes := p.changes.MarkDirty FieldDiscount,
                  events := p.events ++
                    [DomainEvent.discountApplied p.id d.percentage
                      d.startDate d.endDate now] },
         none)

/-- RemoveDiscount embeds Product.RemoveDiscount. -/
def RemoveDiscount (p : Product) (now : Int) : Product × Option ProductError :=
  if p.status = ProductStatus.archived then (p, some .productArchived)
  else match p.discount with
    | none => (p, some .noDiscountToRemove)
    | some _ =>
      ({ p with discount := none,
                updatedAt := now,
                changes := p.changes.MarkDirty FieldDiscount,
                events := p.events ++ [DomainEvent.discountRemoved p.id now] },
       none)

/-- IsActive embeds Product.IsActive. -/
def IsActive (p : Product) : Bool := p.status = ProductStatus.active

/-- IsArchived embeds Product.IsArchived. -/
def IsArchived (p : Product) : Bool := p.status = ProductStatus.archived

end Product

/-- Method names one call to one of the six mutating aggregate methods,
with its arguments. -/
inductive Method where
  | update (name description category : String) (now : Int)
  | activate (now : Int)
  | deactivate (now : Int)
  | archive (now : Int)
  | applyDiscount (discount : Option Discount) (now : Int)
  | removeDiscount (now : Int)
deriving DecidableEq, Repr

/-- callMethod dispatches one mutating method call on the aggregate. -/
def callMethod (p : Product) : Method → Product × Option ProductError
  | .update n d c now => p.Update n d c now
  | .activate now => p.Activate now
  | .deactivate now => p.Deactivate now
  | .archive now => p.Archive now
  | .applyDiscount d now => p.ApplyDiscount d now
  | .removeDiscount now => p.RemoveDiscount now

/-- runMethods folds a sequence of mutating calls over the aggregate,
keeping the receiver state each call leaves behind (Go mutates the
receiver in place, so the state after an erroring call is whatever the
method left it as). -/
def runMethods (p : Product) (ms : List Method) : Product :=
  ms.foldl (fun q m => (callMethod q m).1) p

/-- Plan collects persistence mutations for one atomic commit. The
mutation type is not inspected by the plan, so it is a type parameter;
a Go nil mutation argument is `none`. -/
structure Plan (μ : Type) where
  mutations : List μ

/-- NewPlan embeds the Go constructor: an empty mutation list. -/
def NewPlan (μ : Type) : Plan μ := ⟨[]⟩

namespace Plan

/-- Add embeds Plan.Add: append the mutation unless it is nil. -/
def Add {μ : Type} (p : Plan μ) (m : Option μ) : Plan μ :=
  match m with
  | some x => ⟨p.mutations ++ [x]⟩
  | none => p

/-- AddAll embeds Plan.AddAll: Add each given mutation in order. -/
def AddAll {μ : Type} (p : Plan μ) (muts : List (Option μ)) : Plan μ :=
  muts.foldl Plan.Add p

/-- IsEmpty embeds Plan.IsEmpty. -/
def IsEmpty {μ : Type} (p : Plan μ) : Bool := p.mutations.length = 0

/-- Count embeds Plan.Count. -/
def Count {μ : Type} (p : Plan μ) : Nat := p.mutations.length

/-- Clear embeds Plan.Clear: back to an empty mutation list. -/
def Clear {μ : Type} (_ : Plan μ) : Plan μ := ⟨[]⟩

end Plan

/-- PlanOp names one call in a sequence of Add, AddAll and Clear calls
on a plan. -/
inductive PlanOp (μ : Type) where
  | add (m : Option μ)
  | addAll (muts : List (Option μ))
  | clear

/-- runPlanOps folds a sequence of plan calls over a plan. -/
def runPlanOps {μ : Type} (p : Plan μ) (ops : List (PlanOp μ)) : Plan μ :=
  ops.foldl
    (fun q op =>
      match op with
      | .add m => q.Add m
      | .addAll muts => q.AddAll muts
      | .clear => q.Clear)
    p

/-- countedAdds is the number of non-nil mutations added since
construction or the last Clear in a sequence of plan calls, starting
from a given running count. -/
def countedAdds {μ : Type} (ops : List (PlanOp μ)) (start : Nat) : Nat :=
  ops.foldl
    (fun acc op =>
      match op with
      | .add m => acc + (if m.isSome then 1 else 0)
      | .addAll muts => acc + muts.countP Option.isSome
      | .clear => 0)
    start

/-- archivedSample is a concrete archived aggregate, as the repository
would hydrate it, used to instantiate theorems at a concrete input. -/
def archivedSample : Product :=
  ReconstructProduct "p1" "Widget" "A widget" "Tools" (NewMoney 1999 100)
    none ProductStatus.archived 0 3 (some 3)

/-- draftSample is a concrete draft aggregate used to instantiate
theorems at a concrete input. -/
def draftSample : Product :=
  ReconstructProduct "p1" "Widget" "A widget" "Tools" (NewMoney 1999 100)
    none ProductStatus.draft 0 0 none

/-- sampleDiscount is a concrete 20 percent discount valid on [0, 10). -/
def sampleDiscount : Discount := ⟨20, 0, 10⟩

/-!  Helper lemmas about the aggregate methods. -/

theorem update_error_fst (p : Product) (n d c : String) (now : Int)
    (e : ProductError) (h : (p.Update n d c now).2 = some e) :
    (p.Update n d c now).1 = p := by
  unfold Product.Update at h ⊢
  split_ifs at h ⊢ <;> first | rfl | simp at h

theorem activate_error_fst (p : Product) (now : Int) (e : ProductError)
    (h : (p.Activate now).2 = some e) : (p.Activate now).1 = p := by
  unfold Product.Activate at h ⊢
  split_ifs at h ⊢ <;> first | rfl | simp at h

theorem deactivate_error_fst (p : Product) (now : Int) (e : ProductError)
    (h : (p.Deactivate now).2 = some e) : (p.Deactivate now).1 = p := by
  unfold Product.Deactivate at h ⊢
  split_ifs at h ⊢ <;> first | rfl | simp at h

theorem archive_error_fst (p : Product) (now : Int) (e : ProductError)
    (h : (p.Archive now).2 = some e) : (p.Archive now).1 = p := by
  unfold Product.Archive at h ⊢
  split_ifs at h ⊢ <;> first | rfl | simp at h

theorem applyDiscount_error_fst (p : Product) (d : Option Discount)
    (now : Int) (e : ProductError) (h : (p.ApplyDiscount d now).2 = some e) :
    (p.ApplyDiscount d now).1 = p := by
  cases d with
  | none =>
    unfold Product.ApplyDiscount at h ⊢
    split_ifs at h ⊢ <;> rfl
  | some d0 =>
    unfold Product.ApplyDiscount at h ⊢
    dsimp only at h ⊢
    split_ifs at h ⊢ <;> first | rfl | simp at h

theorem removeDiscount_error_fst (p : Product) (now : Int) (e : ProductError)
    (h : (p.RemoveDiscount now).2 = some e) : (p.RemoveDiscount now).1 = p := by
  unfold Product.RemoveDiscount at h ⊢
  split_ifs at h ⊢
  · rfl
  · rcases hd : p.discount with _ | d0 <;>
      simp only [hd] at h ⊢ <;> first | rfl | simp at h

/-- Claim C1: every mutating aggregate method that returns an error
(state precondition or input validation) leaves the product completely
unmodified: every field, the change tracker and the pending event
queue keep their prior values. -/
theorem mutating_error_leaves_product_unchanged (p : Product) (m : Method)
    (e : ProductError) (h : (callMethod p m).2 = some e) :
    (callMethod p m).1 = p := by
  cases m with
  | update n d c now => exact update_error_fst p n d c now e h
  | activate now => exact activate_error_fst p now e h
  | deactivate now => exact deactivate_error_fst p now e h
  | archive now => exact archive_error_fst p now e h
  | applyDiscount d now => exact applyDiscount_error_fst p d now e h
  | removeDiscount now => exact removeDiscount_error_fst p now e h

/-- Witness for C1: an Activate call on a concrete archived product
returns an error and leaves it unchanged. -/
theorem mutating_error_leaves_product_unchanged_witness :
    (callMethod archivedSample (Method.activate 7)).2 =
        some ProductError.productArchived ∧
      (callMethod archivedSample (Method.activate 7)).1 = archivedSample :=
  ⟨by decide,
   mutating_error_leaves_product_unchanged archivedSample (Method.activate 7)
     ProductError.productArchived (by decide)⟩

theorem archived_call_effect (p : Product) (m : Method)
    (h : p.status = ProductStatus.archived) :
    (callMethod p m).1 = p ∧ ((callMethod p m).2).isSome = true := by
  cases m with
  | update n d c now => simp [callMethod, Product.Update, h]
  | activate now => simp [callMethod, Product.Activate, h]
  | deactivate now => simp [callMethod, Product.Deactivate, h]
  | archive now => simp [callMethod, Product.Archive, h]
  | applyDiscount d now => simp [callMethod, Product.ApplyDiscount, h]
  | removeDiscount now => simp [callMethod, Product.RemoveDiscount, h]

/-- Claim C2: an archived product is terminal: no sequence of mutating
method calls changes it at all, its status stays Archived, and every
further mutating call returns an error. -/
theorem archived_is_terminal (p : Product)
    (h : p.status = ProductStatus.archived) (ms : List Method) :
    runMethods p ms = p ∧ (runMethods p ms).status = ProductStatus.archived ∧
      ∀ m, ((callMethod (runMethods p ms) m).2).isSome = true := by
  have hrun : runMethods p ms = p := by
    induction ms with
    | nil => rfl
    | cons m ms ih =>
      show runMethods (callMethod p m).1 ms = p
      rw [(archived_call_effect p m h).1]
      exact ih
  refine ⟨hrun, ?_, ?_⟩
  · rw [hrun]; exact h
  · intro m
    rw [hrun]
    exact (archived_call_effect p m h).2

/-- Witness for C2: a concrete archived product is unchanged by a
concrete sequence of mutating calls and stays Archived. -/
theorem archived_is_terminal_witness :
    archivedSample.status = ProductStatus.archived ∧
      runMethods archivedSample
          [Method.update "X" "Y" "Z" 4, Method.activate 5,
           Method.applyDiscount (some sampleDiscount) 6] = archivedSample :=
  ⟨by decide,
   (archived_is_terminal archivedSample (by decide)
     [Method.update "X" "Y" "Z" 4, Method.activate 5,
      Method.applyDiscount (some sampleDiscount) 6]).1⟩

/-- Counterexample for C3: ApplyDiscount on a concrete archived product
returns the ProductNotActive error, not the ProductArchived error the
claim requires. -/
theorem applyDiscount_on_archived_not_archived_error :
    (archivedSample.ApplyDiscount (some sampleDiscount) 5).2 =
        some ProductError.productNotActive ∧
      (archivedSample.ApplyDiscount (some sampleDiscount) 5).2 ≠
        some ProductError.productArchived := by
  constructor <;> decide

/-- Claim C3 (amended): ApplyDiscount on an archived product returns
the ProductNotActive error — the non-Active guard fires first, so the
ProductArchived guard is unreachable. -/
theorem applyDiscount_on_archived_returns_not_active (p : Product)
    (d : Option Discount) (now : Int)
    (h : p.status = ProductStatus.archived) :
    p.ApplyDiscount d now = (p, some ProductError.productNotActive) := by
  unfold Product.ApplyDiscount
  rw [if_pos (by rw [h]; exact fun hc => ProductStatus.noConfusion hc)]

/-- Witness for C3 (amended): the amended claim at a concrete archived
product. -/
theorem applyDiscount_on_archived_returns_not_active_witness :
    archivedSample.ApplyDiscount (some sampleDiscount) 5 =
      (archivedSample, some ProductError.productNotActive) :=
  applyDiscount_on_archived_returns_not_active archivedSample
    (some sampleDiscount) 5 (by decide)

/-- createdSample is the concrete aggregate NewProduct builds for a
concrete valid input. -/
def createdSample : Product :=
  { id := "p1"
    name := "Widget"
    description := "A widget"
    category := "Tools"
    basePrice := NewMoney 1999 100
    discount := none
    status := ProductStatus.draft
    createdAt := 0
    updatedAt := 0
    archivedAt := none
    changes := ⟨[FieldName, FieldDescription, FieldCategory, FieldBasePrice,
      FieldStatus]⟩
    events := [DomainEvent.created "p1" "Widget" "A widget" "Tools"
      (NewMoney 1999 100) 0] }

theorem newProduct_ok_char (id n d c : String) (bp : Option Money) (now : Int)
    (p : Product) (h : NewProduct id n d c bp now = .ok p) :
    ∃ b, bp = some b ∧
      p = { id := id
            name := TrimSpace n
            description := TrimSpace d
            category := TrimSpace c
            basePrice := b
            discount := none
            status := ProductStatus.draft
            createdAt := now
            updatedAt := now
            archivedAt := none
            changes := NewChangeTracker.MarkAllDirty
              [FieldName, FieldDescription, FieldCategory, FieldBasePrice,
               FieldStatus]
            events := [DomainEvent.created id (TrimSpace n) (TrimSpace d)
              (TrimSpace c) b now] } := by
  unfold NewProduct at h
  split_ifs at h
  cases bp with
  | none => exact absurd h (by simp)
  | some b =>
    dsimp only at h
    split_ifs at h with hp
    injection h with h1
    exact ⟨b, rfl, h1.symm⟩

theorem newProduct_concrete_eval :
    NewProduct "p1" "Widget" "A widget" "Tools" (some (NewMoney 1999 100)) 0 =
      .ok createdSample := by
  have hpos : ¬¬((NewMoney 1999 100).IsPositive = true) := by
    simp only [not_not, Money.IsPositive, NewMoney, decide_eq_true_eq]
    norm_num
  unfold NewProduct
  rw [if_neg (by decide), if_neg (by decide), if_neg (by decide)]
  dsimp only
  rw [if_neg hpos]
  rfl

/-- Counterexample for C4: for a concrete successful NewProduct call
the discount field is not marked dirty, although the claim requires
every tracked field, discount included, to be dirty. -/
theorem newProduct_discount_field_not_dirty :
    (NewProduct "p1" "Widget" "A widget" "Tools" (some (NewMoney 1999 100))
        0).toOption.map (fun p => p.changes.Dirty FieldDiscount) =
      some false := by
  rw [newProduct_concrete_eval]
  decide

/-- Claim C4 (amended): every successful NewProduct call marks the
name, description, category, base_price and status fields dirty — the
discount field is not marked — and yields exactly one pending event, a
Created event, with status Draft. -/
theorem newProduct_dirty_fields_and_single_created_event
    (id n d c : String) (bp : Option Money) (now : Int) (p : Product)
    (h : NewProduct id n d c bp now = .ok p) :
    p.changes.dirtyFields =
        [FieldName, FieldDescription, FieldCategory, FieldBasePrice,
         FieldStatus] ∧
      p.changes.Dirty FieldDiscount = false ∧
      p.status = ProductStatus.draft ∧
      p.events = [DomainEvent.created p.id p.name p.description p.category
        p.basePrice p.createdAt] := by
  obtain ⟨b, rfl, rfl⟩ := newProduct_ok_char id n d c bp now p h
  refine ⟨?_, ?_, rfl, rfl⟩
  · show (NewChangeTracker.MarkAllDirty
        [FieldName, FieldDescription, FieldCategory, FieldBasePrice,
         FieldStatus]).dirtyFields = _
    decide
  · show (NewChangeTracker.MarkAllDirty
        [FieldName, FieldDescription, FieldCategory, FieldBasePrice,
         FieldStatus]).Dirty FieldDiscount = false
    decide

/-- Witness for C4 (amended): the amended claim at a concrete input. -/
theorem newProduct_dirty_fields_and_single_created_event_witness :
    NewProduct "p1" "Widget" "A widget" "Tools" (some (NewMoney 1999 100)) 0 =
        .ok createdSample ∧
      createdSample.changes.Dirty FieldDiscount = false ∧
      createdSample.status = ProductStatus.draft :=
  ⟨newProduct_concrete_eval,
   (newProduct_dirty_fields_and_single_created_event "p1" "Widget" "A widget"
     "Tools" (some (NewMoney 1999 100)) 0 createdSample
     newProduct_concrete_eval).2.1,
   (newProduct_dirty_fields_and_single_created_event "p1" "Widget" "A widget"
     "Tools" (some (NewMoney 1999 100)) 0 createdSample
     newProduct_concrete_eval).2.2.1⟩

/-- Claim C5: on a non-archived product, an Update whose inputs trim to
the current field values is a successful no-op — same product back, no
dirty marks, no events, updatedAt untouched — and in general a
successful Update emits an Updated event if and only if at least one of
the three fields actually changed. -/
theorem update_noop_idempotent_and_event_iff_changed (p : Product)
    (n d c : String) (now : Int)
    (hA : p.status ≠ ProductStatus.archived)
    (hN : TrimSpace n ≠ "") (hC : TrimSpace c ≠ "") :
    (p.Update n d c now).2 = none ∧
      ((p.Update n d c now).1.events =
          p.events ++ [DomainEvent.updated p.id (TrimSpace n) (TrimSpace d)
            (TrimSpace c) now] ↔
        (p.name ≠ TrimSpace n ∨ p.description ≠ TrimSpace d ∨
          p.category ≠ TrimSpace c)) ∧
      ((p.name = TrimSpace n ∧ p.description = TrimSpace d ∧
          p.category = TrimSpace c) →
        (p.Update n d c now).1 = p) := by
  by_cases h1 : p.name = TrimSpace n <;>
    by_cases h2 : p.description = TrimSpace d <;>
      by_cases h3 : p.category = TrimSpace c <;>
        simp [Product.Update, hA, hN, hC, h1, h2, h3]

/-- Witness for C5: a no-op Update on a concrete draft product returns
no error. -/
theorem update_noop_idempotent_and_event_iff_changed_witness :
    (draftSample.Update "Widget" "A widget" "Tools" 9).2 = none :=
  (update_noop_idempotent_and_event_iff_changed draftSample "Widget"
    "A widget" "Tools" 9 (by decide) (by decide) (by decide)).1

/-- Claim C6: for a successfully constructed discount with window
[start, end), IsValidAt t holds exactly when start ≤ t < end: true at
start, false at the end instant, true strictly inside, false strictly
before the start or after the end. -/
theorem discount_isValidAt_halfopen (pct : Option Rat) (s e t : Int)
    (d : Discount) (h : NewDiscount pct s e = .ok d) :
    (d.IsValidAt t = true ↔ s ≤ t ∧ t < e) ∧
      d.IsValidAt s = true ∧ d.IsValidAt e = false ∧
      (t < s → d.IsValidAt t = false) ∧
      (e < t → d.IsValidAt t = false) := by
  cases pct with
  | none => simp [NewDiscount] at h
  | some q =>
    unfold NewDiscount at h
    dsimp only at h
    by_cases h1 : q ≤ 0
    · rw [if_pos h1] at h
      exact absurd h (by simp)
    · rw [if_neg h1] at h
      by_cases h2 : (100 : Rat) < q
      · rw [if_pos h2] at h
        exact absurd h (by simp)
      · rw [if_neg h2] at h
        by_cases h3 : s < e
        · rw [if_neg (not_not_intro h3)] at h
          injection h with h4
          subst h4
          refine ⟨?_, ?_, ?_, ?_, ?_⟩
          · simp only [Discount.IsValidAt, Bool.and_eq_true, Bool.not_eq_true',
              decide_eq_true_eq, decide_eq_false_iff_not, not_lt]
          · simp only [Discount.IsValidAt, Bool.and_eq_true, Bool.not_eq_true',
              decide_eq_true_eq, decide_eq_false_iff_not, not_lt]
            omega
          · simp only [Discount.IsValidAt, Bool.and_eq_false_iff,
              Bool.not_eq_false', decide_eq_true_eq, decide_eq_false_iff_not,
              not_lt]
            omega
          · intro ht
            simp only [Discount.IsValidAt, Bool.and_eq_false_iff,
              Bool.not_eq_false', decide_eq_true_eq, decide_eq_false_iff_not,
              not_lt]
            omega
          · intro ht
            simp only [Discount.IsValidAt, Bool.and_eq_false_iff,
              Bool.not_eq_false', decide_eq_true_eq, decide_eq_false_iff_not,
              not_lt]
            omega
        · rw [if_pos h3] at h
          exact absurd h (by simp)

/-- Witness for C6: the concrete discount on [0, 10) is valid at 5. -/
theorem discount_isValidAt_halfopen_witness :
    Discount.IsValidAt ⟨20, 0, 10⟩ 5 = true :=
  ((discount_isValidAt_halfopen (some 20) 0 10 5 ⟨20, 0, 10⟩ rfl).1).mpr
    (by decide)

/-- Claim C7: Money values compare as reduced rationals: scaling the
numerator and the denominator by the same nonzero factor yields an
equal value. -/
theorem money_equals_scaled (n d k : Int) (hd : d ≠ 0) (hk : k ≠ 0) :
    (NewMoney n d).Equals (NewMoney (k * n) (k * d)) = true := by
  have hkd : k * d ≠ 0 := mul_ne_zero hk hd
  have hkQ : (k : Rat) ≠ 0 := Int.cast_ne_zero.mpr hk
  unfold NewMoney Money.Equals
  rw [if_neg hd, if_neg hkd]
  simp only [decide_eq_true_eq]
  push_cast
  rw [mul_div_mul_left _ _ hkQ]

/-- Witness for C7: Money(3, 2) equals Money(15, 10). -/
theorem money_equals_scaled_witness :
    (NewMoney 3 2).Equals (NewMoney (5 * 3) (5 * 2)) = true :=
  money_equals_scaled 3 2 5 (by decide) (by decide)

/-- Claim C8: a zero denominator does not fail and is silently replaced
by 1 at construction: NewMoney(n, 0) equals NewMoney(n, 1). -/
theorem money_zero_denominator_defaults_to_one (n : Int) :
    (NewMoney n 0).Equals (NewMoney n 1) = true := by
  simp [NewMoney, Money.Equals]

/-!  WritePlan counting lemmas and claim C9. -/

theorem plan_add_count {μ : Type} (m : Option μ) (p : Plan μ) :
    (p.Add m).Count = p.Count + (if m.isSome then 1 else 0) := by
  cases m <;> simp [Plan.Add, Plan.Count]

theorem plan_addAll_count {μ : Type} (muts : List (Option μ)) (p : Plan μ) :
    (p.AddAll muts).Count = p.Count + muts.countP Option.isSome := by
  induction muts generalizing p with
  | nil => rfl
  | cons m muts ih =>
    show (Plan.AddAll (p.Add m) muts).Count = _
    rw [ih, plan_add_count, List.countP_cons]
    cases m <;> simp <;> omega

theorem runPlanOps_count {μ : Type} (ops : List (PlanOp μ)) (p : Plan μ) :
    (runPlanOps p ops).Count = countedAdds ops p.Count := by
  induction ops generalizing p with
  | nil => rfl
  | cons op ops ih =>
    cases op with
    | add m =>
      show (runPlanOps (p.Add m) ops).Count =
        countedAdds ops (p.Count + (if m.isSome then 1 else 0))
      rw [ih, plan_add_count]
    | addAll muts =>
      show (runPlanOps (p.AddAll muts) ops).Count =
        countedAdds ops (p.Count + muts.countP Option.isSome)
      rw [ih, plan_addAll_count]
    | clear =>
      show (runPlanOps p.Clear ops).Count = countedAdds ops 0
      rw [ih]
      rfl

/-- Claim C9: on a plan, Add of a nil mutation is a no-op, Clear
empties the plan, and over any sequence of Add, AddAll and Clear
calls starting from a new plan the count equals the number of non-nil
mutations added since construction or the last Clear. -/
theorem plan_nil_noop_count_and_clear {μ : Type} (p : Plan μ)
    (ops : List (PlanOp μ)) :
    p.Add none = p ∧ p.Clear.IsEmpty = true ∧
      (runPlanOps (NewPlan μ) ops).Count = countedAdds ops 0 :=
  ⟨rfl, rfl, runPlanOps_count ops (NewPlan μ)⟩

/-!  Reachability of aggregate states and claim C10. -/

/-- Reachable holds of the aggregate states obtainable from a
successful NewProduct call by the six mutating aggregate methods
(whatever they return, the receiver state they leave behind is
reachable). -/
inductive Reachable : Product → Prop where
  | created (id n d c : String) (bp : Option Money) (now : Int) (p : Product) :
      NewProduct id n d c bp now = Except.ok p → Reachable p
  | step (p : Product) (m : Method) : Reachable p → Reachable (callMethod p m).1

theorem callMethod_preserves_archived_iff (p : Product) (m : Method)
    (h : p.archivedAt.isSome = true ↔ p.status = ProductStatus.archived) :
    ((callMethod p m).1.archivedAt.isSome = true ↔
      (callMethod p m).1.status = ProductStatus.archived) := by
  cases m with
  | update n d c now =>
    have h1 : (p.Update n d c now).1.archivedAt = p.archivedAt := by
      unfold Product.Update
      split_ifs <;> first | rfl | (dsimp only; split_ifs <;> rfl)
    have h2 : (p.Update n d c now).1.status = p.status := by
      unfold Product.Update
      split_ifs <;> first | rfl | (dsimp only; split_ifs <;> rfl)
    show ((p.Update n d c now).1.archivedAt.isSome = true ↔
      (p.Update n d c now).1.status = ProductStatus.archived)
    rw [h1, h2]
    exact h
  | activate now =>
    simp only [callMethod]
    unfold Product.Activate
    split_ifs with hs1 hs2 hs3 <;>
      first
        | exact h
        | (rw [iff_false]
           intro hsome
           exact absurd (h.mp hsome) hs1)
        | simp
  | deactivate now =>
    simp only [callMethod]
    unfold Product.Deactivate
    split_ifs with hs1 hs2 hs3 <;>
      first
        | exact h
        | (rw [iff_false]
           intro hsome
           exact absurd (h.mp hsome) hs1)
        | simp
  | archive now =>
    simp only [callMethod]
    unfold Product.Archive
    split_ifs with hs1 <;> first | exact h | simp
  | applyDiscount d now =>
    simp only [callMethod]
    unfold Product.ApplyDiscount
    split_ifs with hs1 hs2 <;>
      first
        | exact h
        | (cases d with
           | none => exact h
           | some d0 =>
             dsimp only
             split_ifs with hexp <;> exact h)
  | removeDiscount now =>
    simp only [callMethod]
    unfold Product.RemoveDiscount
    split_ifs with hs1 <;>
      first
        | exact h
        | (cases hd : p.discount with
           | none =>
             simp only [hd]
             exact h
           | some d0 =>
             simp only [hd]
             exact h)

/-- Claim C10: for every aggregate state reachable from a successful
NewProduct call through the mutating methods, archivedAt is present
exactly when the status is Archived: it starts absent in status Draft,
only Archive sets it (together with the Archived status) and no method
clears it. -/
theorem reachable_archivedAt_iff_archived (p : Product) (h : Reachable p) :
    p.archivedAt.isSome = true ↔ p.status = ProductStatus.archived := by
  induction h with
  | created id n d c bp now p0 hok =>
    obtain ⟨b, _, rfl⟩ := newProduct_ok_char id n d c bp now p0 hok
    simp
  | step p0 m hr ih => exact callMethod_preserves_archived_iff p0 m ih

/-- Witness for C10: the invariant instantiated at the concrete product
built by NewProduct. -/
theorem reachable_archivedAt_iff_archived_witness :
    createdSample.archivedAt.isSome = true ↔
      createdSample.status = ProductStatus.archived :=
  reachable_archivedAt_iff_archived createdSample
    (Reachable.created "p1" "Widget" "A widget" "Tools"
      (some (NewMoney 1999 100)) 0 createdSample newProduct_concrete_eval)

end Catalog
